import Mathlib

/-!
Verification development for the whosecourt webhook agent.

The Go program keeps a pull request labeled with exactly one of two
"court" labels.  Two historical implementations exist: the current
Lambda handler (main.go, incremental remove-then-add applier) and an
older HTTP-server version (part_000, full-list rewrite applier).
Both are embedded below; fallible Go functions return an explicit
result type, nil-pointer dereferences are modeled as a panic outcome,
and network traffic is recorded as an explicit trace of calls.
-/

namespace WhoseCourt

/-- Go constant `REVIEWER_COURT = "reviewers_court"` (main.go). -/
def REVIEWER_COURT : String := "reviewers_court"

/-- Go constant `AUTHOR_COURT = "authors_court"` (main.go). -/
def AUTHOR_COURT : String := "authors_court"

/-- The key set of the Go map `ReviewerLabels` (main.go): the two known
court-label names.  Go map iteration order is unspecified; we fix this
enumeration, which is sound for the order-insensitive properties proved
below. -/
def ReviewerLabelNames : List String := [REVIEWER_COURT, AUTHOR_COURT]

/-- A GitHub label as the program uses it: `*label.ID` and `*label.Name`
are the only dereferenced fields. -/
structure Label where
  id : Int
  name : String
deriving DecidableEq, Repr

/-- Outcome of a Go function call: a normal value, a returned `error`
(carrying its message), or a runtime panic (nil-pointer dereference). -/
inductive GoResult (α : Type) where
  | ok : α → GoResult α
  | err : String → GoResult α
  | panicked : GoResult α
deriving DecidableEq, Repr

/-- The `Owner` (`*github.User`) record: only `Owner.Name` (a `*string`)
is read by the program. -/
structure RepoOwner where
  name : Option String
deriving DecidableEq, Repr

/-- The `*github.Repository` record as read by the program: the `Owner` pointer, the
`Name` pointer and the `FullName` pointer. -/
structure Repo where
  owner : Option RepoOwner
  name : Option String
  fullName : Option String
deriving DecidableEq, Repr

/-- Go `strings.Split(s, "/")` restricted to the single-character separator
the program uses, on the character list of the string. -/
def splitSlashAux : List Char → List Char → List (List Char)
  | [], acc => [acc.reverse]
  | c :: rest, acc =>
    if c = '/' then acc.reverse :: splitSlashAux rest []
    else splitSlashAux rest (c :: acc)

def splitOnSlash (l : List Char) : List (List Char) := splitSlashAux l []

/-- Go `strings.Count(s, "/")`. -/
def countSlash (s : String) : Nat := s.data.countP (fun c => c == '/')

/-- Embedding of `getRepoOwner` (main.go):

```go
if repo.Owner.Name != nil {
    owner = *repo.Owner.Name
    repoName = *repo.Name
} else if strings.Count(*repo.FullName, "/") == 1 {
    parts := strings.Split(*repo.FullName, "/")
    owner = parts[0]
    repoName = parts[1]
} else {
    return "", "", fmt.Errorf(...)
}
```

`repo.Owner.Name` with a nil `Owner`, `*repo.Name` with a nil `Name`,
and `*repo.FullName` with a nil `FullName` are nil dereferences and
panic. -/
def getRepoOwner (repo : Repo) : GoResult (String × String) :=
  match repo.owner with
  | none => GoResult.panicked
  | some o =>
    match o.name with
    | some ownerName =>
      match repo.name with
      | some rn => GoResult.ok (ownerName, rn)
      | none => GoResult.panicked
    | none =>
      match repo.fullName with
      | none => GoResult.panicked
      | some fn =>
        if countSlash fn = 1 then
          match splitOnSlash fn.data with
          | [a, b] => GoResult.ok (String.mk a, String.mk b)
          | _ => GoResult.panicked
        else
          GoResult.err "cant determine repository information from event"

/-- A network call against the upstream provider REST surface, as
issued by the program (the provider itself is an external collaborator). -/
inductive NetCall where
  | getLabel : String → String → String → NetCall
  | createLabel : String → String → String → NetCall
  | removeLabel : String → String → Int → String → NetCall
  | addLabels : String → String → Int → List String → NetCall
  | editPR : String → String → Int → List (Option Label) → NetCall
deriving DecidableEq, Repr

/-- The `*github.PullRequest` record as read by `changeCourt` (main.go): the labels
snapshot, the issue number, and `pr.GetBase().Repo`. -/
structure PullRequest where
  number : Int
  labels : List Label
  baseRepo : Repo
deriving DecidableEq, Repr

/-- The `oldCourt` computation of `changeCourt` (main.go):
`if court == REVIEWER_COURT { oldCourt = AUTHOR_COURT } else { oldCourt = REVIEWER_COURT }`. -/
def otherCourt (court : String) : String :=
  if court = REVIEWER_COURT then AUTHOR_COURT else REVIEWER_COURT

/-- Outcome of the `RemoveLabelForIssue` call as seen by the caller:
the Go `error` (message, when non-nil) and the `*github.Response`
status code (`none` models a nil response pointer). -/
structure RemoveOutcome where
  errMsg : Option String
  respStatus : Option Nat
deriving DecidableEq, Repr

/-- Embedding of `changeCourt` (main.go, incremental strategy):

```go
resp, err := client.Issues.RemoveLabelForIssue(ctx, owner, repoName, *pr.Number, oldCourt)
if err != nil && (resp == nil || resp.StatusCode != 404) {
    return err
}
_, _, err = client.Issues.AddLabelsToIssue(ctx, owner, repoName, *pr.Number, []string{court})
return err
```

The remove and add outcomes are oracle parameters (the provider is an
external collaborator); the second component is the trace of network
calls issued, in order. -/
def changeCourt (court : String) (pr : PullRequest)
    (removeOut : RemoveOutcome) (addErr : Option String) :
    GoResult Unit × List NetCall :=
  match getRepoOwner pr.baseRepo with
  | GoResult.panicked => (GoResult.panicked, [])
  | GoResult.err e => (GoResult.err e, [])
  | GoResult.ok (owner, repoName) =>
    let removeCall := NetCall.removeLabel owner repoName pr.number (otherCourt court)
    let addCall := NetCall.addLabels owner repoName pr.number [court]
    match removeOut.errMsg with
    | some e =>
      if removeOut.respStatus = some 404 then
        match addErr with
        | some e2 => (GoResult.err e2, [removeCall, addCall])
        | none => (GoResult.ok (), [removeCall, addCall])
      else
        (GoResult.err e, [removeCall])
    | none =>
      match addErr with
      | some e2 => (GoResult.err e2, [removeCall, addCall])
      | none => (GoResult.ok (), [removeCall, addCall])

/-- Result of the label-rewriting loop of `changeCourt` (part_000):
either the loop returned early because the pull request already carries
the target label, or it panicked on a nil label pointer, or it produced
the new label list to persist. -/
inductive RewriteResult where
  | alreadyLabeled : RewriteResult
  | panicked : RewriteResult
  | rewritten : List (Option Label) → RewriteResult
deriving DecidableEq, Repr

/-- The loop body of `changeCourt` (part_000, rewrite strategy):

```go
for _, l := range pr.Labels {
    if _, ok := labelIds[*l.ID]; ok {
        if *l.Name == court {
            return nil
        } else {
            newLabels = append(newLabels, courtLabels[court])
        }
    } else {
        newLabels = append(newLabels, l)
    }
}
```

Labels are `*github.Label`, so a list entry is an `Option Label` and a
nil entry panics at `*l.ID`; `courtLabels[court]` is a Go map lookup
whose miss yields a nil pointer, hence `courtLabels : String → Option Label`. -/
def rewriteLabels (court : String) (labelIds : Int → Bool)
    (courtLabels : String → Option Label) :
    List (Option Label) → RewriteResult
  | [] => RewriteResult.rewritten []
  | none :: _ => RewriteResult.panicked
  | some l :: rest =>
    if labelIds l.id then
      if l.name = court then RewriteResult.alreadyLabeled
      else
        match rewriteLabels court labelIds courtLabels rest with
        | RewriteResult.alreadyLabeled => RewriteResult.alreadyLabeled
        | RewriteResult.panicked => RewriteResult.panicked
        | RewriteResult.rewritten r => RewriteResult.rewritten (courtLabels court :: r)
    else
      match rewriteLabels court labelIds courtLabels rest with
      | RewriteResult.alreadyLabeled => RewriteResult.alreadyLabeled
      | RewriteResult.panicked => RewriteResult.panicked
      | RewriteResult.rewritten r => RewriteResult.rewritten (some l :: r)

/-- Embedding of `changeCourt` (part_000, rewrite strategy): runs the
rewriting loop; on early return no network call is made and the labels
are unchanged; otherwise the full new list is persisted with one
`PullRequests.Edit` call (outcome given by the oracle `editErr`).
Returns (result, trace, the label list the pull request holds after the call —
Go mutates `pr.Labels` before calling Edit). -/
def changeCourtRewrite (court : String) (labelIds : Int → Bool)
    (courtLabels : String → Option Label) (labels : List (Option Label))
    (owner repoName : String) (number : Int) (editErr : Option String) :
    GoResult Unit × List NetCall × List (Option Label) :=
  match rewriteLabels court labelIds courtLabels labels with
  | RewriteResult.alreadyLabeled => (GoResult.ok (), [], labels)
  | RewriteResult.panicked => (GoResult.panicked, [], labels)
  | RewriteResult.rewritten nl =>
    match editErr with
    | some e => (GoResult.err e, [NetCall.editPR owner repoName number nl], nl)
    | none => (GoResult.ok (), [NetCall.editPR owner repoName number nl], nl)

/-- Model of the upstream provider label state, as a list of label
names attached to the pull request (an external collaborator, modeled
from its documented behavior): removing a label deletes all labels of
that name, adding appends the names not already present, and the
full-object edit replaces the label list (nil entries dropped). -/
def applyCall (names : List String) : NetCall → List String
  | NetCall.removeLabel _ _ _ n => names.filter (fun m => m != n)
  | NetCall.addLabels _ _ _ ls =>
    ls.foldl (fun acc n => if acc.contains n then acc else acc ++ [n]) names
  | NetCall.editPR _ _ _ ls => ls.filterMap (fun o => o.map (fun l => l.name))
  | _ => names

/-- Run a trace of network calls against a label state. -/
def applyCalls (names : List String) (calls : List NetCall) : List String :=
  calls.foldl applyCall names

/-- A label name that is neither of the two court labels. -/
def nonCourtName (n : String) : Bool :=
  !(n == REVIEWER_COURT) && !(n == AUTHOR_COURT)

/-- Outcome of `client.Issues.GetLabel` as the caller distinguishes it:
a label, a 404 response (`resp != nil && resp.StatusCode == 404`), or
any other failure with its error message. -/
inductive GetLabelResult where
  | found : Label → GetLabelResult
  | notFound : GetLabelResult
  | failed : String → GetLabelResult
deriving DecidableEq, Repr

/-- The upstream provider answers to the fetch and create calls of the
registry (an external collaborator, supplied as an oracle). -/
structure LabelServer where
  get : String → GetLabelResult
  create : String → GoResult Label

/-- The process-wide registry cache: the key set of the Go map
`labelIds` (insertion deduplicates, as map assignment does) and the
entries of the Go map `courtLabels` (most recent assignment first). -/
structure Cache where
  labelIds : List Int
  courtLabels : List (String × Label)
deriving DecidableEq, Repr

/-- Go `labelIds[*label.ID] = true`: map assignment, key set grows only
on a fresh key. -/
def insertId (ids : List Int) (i : Int) : List Int :=
  if ids.contains i then ids else ids ++ [i]

/-- Go `labelIds[*label.ID] = true; courtLabels[*label.Name] = label`. -/
def recordLabel (cache : Cache) (l : Label) : Cache :=
  { labelIds := insertId cache.labelIds l.id,
    courtLabels := (l.name, l) :: cache.courtLabels }

/-- The `for l := range ReviewerLabels` loop of `loadLabels` (main.go):

```go
label, resp, err := client.Issues.GetLabel(ctx, owner, repoName, l)
if resp != nil && resp.StatusCode == 404 {
    label, resp, err = client.Issues.CreateLabel(ctx, owner, repoName, &github.Label{Name: &l})
    if err != nil {
        return errors.Wrap(err, fmt.Sprintf("Unable to create label %s", l))
    }
} else if err != nil {
    return err
}
labelIds[*label.ID] = true
courtLabels[*label.Name] = label
```

Returns the updated cache (or the first error) and the trace of
network calls. -/
def loadLabelsLoop (server : LabelServer) (owner repoName : String) :
    Cache → List String → GoResult Cache × List NetCall
  | cache, [] => (GoResult.ok cache, [])
  | cache, name :: rest =>
    match server.get name with
    | GetLabelResult.failed msg =>
      (GoResult.err msg, [NetCall.getLabel owner repoName name])
    | GetLabelResult.found l =>
      let next := loadLabelsLoop server owner repoName (recordLabel cache l) rest
      (next.1, NetCall.getLabel owner repoName name :: next.2)
    | GetLabelResult.notFound =>
      match server.create name with
      | GoResult.err e =>
        (GoResult.err ("Unable to create label " ++ name ++ ": " ++ e),
         [NetCall.getLabel owner repoName name, NetCall.createLabel owner repoName name])
      | GoResult.panicked =>
        (GoResult.panicked,
         [NetCall.getLabel owner repoName name, NetCall.createLabel owner repoName name])
      | GoResult.ok l =>
        let next := loadLabelsLoop server owner repoName (recordLabel cache l) rest
        (next.1,
         NetCall.getLabel owner repoName name :: NetCall.createLabel owner repoName name :: next.2)

/-- Embedding of `loadLabels` (main.go): fast path when the cache
already holds as many identifiers as there are known court-label names
(`len(labelIds) == len(ReviewerLabels)`), else resolve the repository
coordinates and run the loop over the two names. -/
def loadLabels (server : LabelServer) (repo : Repo) (cache : Cache) :
    GoResult Cache × List NetCall :=
  if cache.labelIds.length = ReviewerLabelNames.length then
    (GoResult.ok cache, [])
  else
    match getRepoOwner repo with
    | GoResult.panicked => (GoResult.panicked, [])
    | GoResult.err e => (GoResult.err e, [])
    | GoResult.ok (owner, repoName) =>
      loadLabelsLoop server owner repoName cache ReviewerLabelNames

/-- The transport-level answer to the token-issuance POST: the Go
`error` returned by `client.Do` (when non-nil), the response status
code and the response body. -/
structure TokenExchangeAnswer where
  doErr : Option String
  status : Nat
  body : String
deriving DecidableEq, Repr

/-- The `github.InstallationToken` fields the success path dereferences
(`*token.Token`, `*token.ExpiresAt`); a missing field is a nil
dereference. -/
structure ParsedInstallationToken where
  token : Option String
  expiresAt : Option Int
deriving DecidableEq, Repr

/-- Embedding of `InstallationTokenSource.Token` (auth.go):

```go
req, err := t.client.NewRequest("POST", t.accessTokenUrl, nil)
if err != nil { return nil, err }
token := &github.InstallationToken{}
resp, err := t.client.Do(t.ctx, req, token)
if err != nil { return nil, err }
if resp.StatusCode >= 400 {
    respBody, _ := ioutil.ReadAll(resp.Body)
    return nil, errors.Errorf("Bad status code returned for access token url- %d %s", resp.StatusCode, respBody)
}
return &oauth2.Token{AccessToken: *token.Token, Expiry: *token.ExpiresAt, TokenType: "token"}, nil
```

Returns the access-token string and expiry on success. -/
def installationTokenSourceToken (newReqErr : Option String)
    (answer : TokenExchangeAnswer) (parsed : ParsedInstallationToken) :
    GoResult (String × Int) :=
  match newReqErr with
  | some e => GoResult.err e
  | none =>
    match answer.doErr with
    | some e => GoResult.err e
    | none =>
      if answer.status ≥ 400 then
        GoResult.err ("Bad status code returned for access token url- "
          ++ toString answer.status ++ " " ++ answer.body)
      else
        match parsed.token, parsed.expiresAt with
        | some t, some exp => GoResult.ok (t, exp)
        | _, _ => GoResult.panicked

/-- Go regexp `\w` (RE2, ASCII): `[0-9A-Za-z_]`; the pattern class is
`[\w_]`, the same set. -/
def isWordChar (c : Char) : Bool := c.isAlphanum || c == '_'

/-- Maximal run of word characters at the head of the list, and the
remainder. -/
def takeWordRun : List Char → List Char × List Char
  | [] => ([], [])
  | c :: rest =>
    if isWordChar c then
      let p := takeWordRun rest
      (c :: p.1, p.2)
    else ([], c :: rest)

/-- Does the regex `<!-- ([\w_]+) -->` match starting exactly here?  If
so, return the capture group.  The greedy `[\w_]+` takes the maximal
word run; a shorter run would be followed by a word character, never by
the required space, so this is exact. -/
def matchMarkerAt (l : List Char) : Option String :=
  match l with
  | '<' :: '!' :: '-' :: '-' :: ' ' :: rest =>
    let p := takeWordRun rest
    match p.1 with
    | [] => none
    | w =>
      match p.2 with
      | ' ' :: '-' :: '-' :: '>' :: _ => some (String.mk w)
      | _ => none
  | _ => none

/-- Leftmost match: the engine tries each start position left to
right. -/
def findMarkerAux : List Char → Option String
  | [] => none
  | c :: rest =>
    match matchMarkerAt (c :: rest) with
    | some s => some s
    | none => findMarkerAux rest

/-- Embedding of `courtCommentRegex.FindStringSubmatch(body)[1]` for the pattern
`<!-- ([\w_]+) -->` (main.go): the capture of the leftmost match, if
any.  `courtCommentRegex.Match(body)` is `(findCourtMarker body).isSome`,
and a successful match always has the one capture group, so the Go
guard `len(labels) > 1` always holds when the regex matches. -/
def findCourtMarker (body : String) : Option String :=
  findMarkerAux body.data

/-- The `events.APIGatewayProxyResponse` value as the handler builds it: the
status code and body.  The zero value `events.APIGatewayProxyResponse{}`
has status code 0 and empty body. -/
structure Response where
  statusCode : Nat
  body : String
deriving DecidableEq, Repr

/-- One downstream component invocation made while handling an event:
client construction for an installation, the label-registry warm-up, or
a court change. -/
inductive Step where
  | auth : Int → Step
  | load : Step
  | change : String → Step
deriving DecidableEq, Repr

/-- A Go `*int64` value: the allocation it points at (its address) and
the pointed-to integer.  `json.Unmarshal` allocates a fresh cell for
every populated pointer field, so two separately unmarshaled fields
have distinct addresses even when they hold the same integer. -/
structure IntPtr where
  addr : Nat
  val : Int
deriving DecidableEq, Repr

/-- Go `==` on two `*int64` operands: pointer identity.  Nil equals
nil; two non-nil pointers are equal exactly when they are the same
allocation (in which case they necessarily hold the same value); the
pointed-to integers are never compared. -/
def ptrEq : Option IntPtr → Option IntPtr → Bool
  | none, none => true
  | some p, some q => p.addr == q.addr
  | _, _ => false

/-- The fields of `github.PullRequestEvent` the handler dereferences.
In go-github v17 (go.mod) `User.ID` is a `*int64`, so the sender id and
the pull request author id are kept as pointers, not integers. -/
structure PullRequestEventPayload where
  installationId : Int
  action : String
  requestedReviewerPresent : Bool
  requestedReviewersCount : Nat
  senderId : Option IntPtr
  prAuthorId : Option IntPtr
  pr : PullRequest
deriving DecidableEq, Repr

/-- The fields of `github.PullRequestReviewEvent` the handler uses. -/
structure ReviewEventPayload where
  installationId : Int
  pr : PullRequest
deriving DecidableEq, Repr

/-- The fields of `github.PullRequestReviewCommentEvent` the handler
uses: `*event.Comment.Body` and the pull request. -/
structure CommentEventPayload where
  installationId : Int
  commentBody : String
  pr : PullRequest
deriving DecidableEq, Repr

/-- Outcomes of the downstream components, supplied as oracles:
`initClientForInstallation`, `loadLabels`, and `changeCourt` (the last
indexed by the court it is asked to apply).  The components themselves
are embedded separately above; here only their error outcome matters to
the control flow of the handler. -/
structure Downstream where
  authErr : Option String
  loadErr : Option String
  changeErr : String → Option String

/-- The tail of `handleEvent` (main.go):

```go
if err != nil {
    return events.APIGatewayProxyResponse{StatusCode: 500, Body: err.Error(), IsBase64Encoded: false}, err
} else {
    return events.APIGatewayProxyResponse{StatusCode: 200}, nil
}
```
-/
def finishEvent (err : Option String) (steps : List Step) :
    Response × Option String × List Step :=
  match err with
  | some e => (⟨500, e⟩, some e, steps)
  | none => (⟨200, ""⟩, none, steps)

/-- Embedding of `handleEvent` (main.go).  Inputs: the HTTP method, the
`x-github-event` header, the per-kind `json.Unmarshal` outcome (the
body is owned by the upstream schema, so parsing is an oracle), the
process-wide `labelIds` cache as a membership predicate, and the
downstream outcomes.  Output: the returned response, the returned Go
error (its message), and the trace of downstream invocations.

Two Go scoping facts are transcribed exactly: in the
`pull_request_review` and `pull_request_review_comment` cases,
`client, err := initClientForInstallation(...)` declares a NEW
block-scoped `err` shadowing the function-level one, so the subsequent
`err = changeCourt(...)` writes the shadow, which is never read again —
the function-level `err` that the final `if err != nil` inspects is
still nil and the handler reports 200.  In the `pull_request` case the
assignments use `=` on the function-level variables, so errors
propagate.

One typing fact is transcribed exactly as well: in the unlabeled
branch, `event.Sender.ID == event.PullRequest.User.ID` compares two
`*int64` operands (go-github v17), which is pointer identity — `ptrEq`
here — and never compares the pointed-to integers. -/
def handleEvent (method : String) (eventKind : String)
    (prParse : Except String PullRequestEventPayload)
    (reviewParse : Except String ReviewEventPayload)
    (commentParse : Except String CommentEventPayload)
    (labelIds : Int → Bool) (d : Downstream) :
    Response × Option String × List Step :=
  match method, eventKind with
  | "POST", "pull_request" =>
      match prParse with
      | Except.error e => (⟨0, ""⟩, some ("Invalid JSON received: " ++ e), [])
      | Except.ok ev =>
        match d.authErr with
        | some e =>
          (⟨0, ""⟩, some ("Unable to connect to github: " ++ e),
           [Step.auth ev.installationId])
        | none =>
          match d.loadErr with
          | some e =>
            (⟨0, ""⟩, some ("Unable to load labels for repository: " ++ e),
             [Step.auth ev.installationId, Step.load])
          | none =>
            if ev.action = "review_requested" ∨ ev.action = "opened" ∨
                ev.action = "reopened" then
              if ev.requestedReviewerPresent || ev.requestedReviewersCount > 0 then
                finishEvent (d.changeErr REVIEWER_COURT)
                  [Step.auth ev.installationId, Step.load, Step.change REVIEWER_COURT]
              else
                finishEvent none [Step.auth ev.installationId, Step.load]
            else if ev.action = "unlabeled" then
              if ev.pr.labels.any (fun l => labelIds l.id) then
                finishEvent none [Step.auth ev.installationId, Step.load]
              else
                let court :=
                  if ptrEq ev.senderId ev.prAuthorId then REVIEWER_COURT
                  else AUTHOR_COURT
                finishEvent (d.changeErr court)
                  [Step.auth ev.installationId, Step.load, Step.change court]
            else
              finishEvent none [Step.auth ev.installationId, Step.load]
  | "POST", "pull_request_review" =>
      match reviewParse with
      | Except.error e => (⟨400, "Unable to decode JSON - " ++ e⟩, none, [])
      | Except.ok ev =>
        match d.authErr with
        | some e =>
          (⟨0, ""⟩, some ("Unable to connect to github: " ++ e),
           [Step.auth ev.installationId])
        | none =>
          let _shadowedErr := d.changeErr REVIEWER_COURT
          finishEvent none [Step.auth ev.installationId, Step.change REVIEWER_COURT]
  | "POST", "pull_request_review_comment" =>
      match commentParse with
      | Except.error e => (⟨0, ""⟩, some ("Invalid JSON received: " ++ e), [])
      | Except.ok ev =>
        match d.authErr with
        | some e =>
          (⟨0, ""⟩, some ("Unable to connect to github: " ++ e),
           [Step.auth ev.installationId])
        | none =>
          match d.loadErr with
          | some e =>
            (⟨0, ""⟩, some ("Unable to load labels for repository: " ++ e),
             [Step.auth ev.installationId, Step.load])
          | none =>
            match findCourtMarker ev.commentBody with
            | some court =>
              let _shadowedErr := d.changeErr court
              finishEvent none
                [Step.auth ev.installationId, Step.load, Step.change court]
            | none =>
              finishEvent none [Step.auth ev.installationId, Step.load]
  | _, _ => finishEvent none []

/-! ## Theorems -/

theorem reviewer_ne_author : REVIEWER_COURT ≠ AUTHOR_COURT := by decide

theorem otherCourt_reviewer : otherCourt REVIEWER_COURT = AUTHOR_COURT := by decide

theorem otherCourt_author : otherCourt AUTHOR_COURT = REVIEWER_COURT := by decide

theorem otherCourt_isCourt (court : String)
    (h : court = REVIEWER_COURT ∨ court = AUTHOR_COURT) :
    otherCourt court = REVIEWER_COURT ∨ otherCourt court = AUTHOR_COURT := by
  rcases h with h | h <;> subst h <;> simp [otherCourt_reviewer, otherCourt_author]

theorem otherCourt_ne (court : String)
    (h : court = REVIEWER_COURT ∨ court = AUTHOR_COURT) :
    otherCourt court ≠ court := by
  rcases h with h | h <;> subst h <;> decide

theorem nonCourtName_court (court : String)
    (h : court = REVIEWER_COURT ∨ court = AUTHOR_COURT) :
    nonCourtName court = false := by
  rcases h with h | h <;> subst h <;> decide

theorem nonCourtName_ne_court (n court : String)
    (hc : court = REVIEWER_COURT ∨ court = AUTHOR_COURT)
    (hn : nonCourtName n = true) : n ≠ court := by
  intro he
  subst he
  rw [nonCourtName_court n hc] at hn
  exact Bool.false_ne_true hn

/-- Claim C4: every downstream component failure is said to surface as
the failure outcome of the event (HTTP 500 with the error message), never as
a 200 success.  The code violates this: in the `pull_request_review`
and `pull_request_review_comment` cases, `client, err :=` declares a
block-scoped `err` that shadows the function-level one, so the error of
the subsequent `err = changeCourt(...)` is dropped and the handler
reports 200.  This theorem evaluates the handler at such failing
inputs: a review event and a review-comment event whose court change
fails still produce a 200 response with a nil error, while the same
failure in the `pull_request` case (where `=` is used on the
function-level variables) produces the intended 500. -/
theorem C4_apply_error_dropped :
    (handleEvent "POST" "pull_request_review"
        (Except.ok ⟨1, "opened", false, 0, none, none, ⟨1, [], ⟨none, none, none⟩⟩⟩)
        (Except.ok ⟨5, ⟨1, [], ⟨none, none, none⟩⟩⟩)
        (Except.ok ⟨6, "<!-- reviewers_court -->", ⟨1, [], ⟨none, none, none⟩⟩⟩)
        (fun _ => false)
        ⟨none, none, fun _ => some "mutation failed"⟩) =
      (⟨200, ""⟩, none, [Step.auth 5, Step.change REVIEWER_COURT]) ∧
    (handleEvent "POST" "pull_request_review_comment"
        (Except.ok ⟨1, "opened", false, 0, none, none, ⟨1, [], ⟨none, none, none⟩⟩⟩)
        (Except.ok ⟨5, ⟨1, [], ⟨none, none, none⟩⟩⟩)
        (Except.ok ⟨6, "<!-- reviewers_court -->", ⟨1, [], ⟨none, none, none⟩⟩⟩)
        (fun _ => false)
        ⟨none, none, fun _ => some "mutation failed"⟩) =
      (⟨200, ""⟩, none, [Step.auth 6, Step.load, Step.change "reviewers_court"]) ∧
    (handleEvent "POST" "pull_request"
        (Except.ok ⟨7, "opened", true, 0, none, none, ⟨1, [], ⟨none, none, none⟩⟩⟩)
        (Except.ok ⟨5, ⟨1, [], ⟨none, none, none⟩⟩⟩)
        (Except.ok ⟨6, "<!-- reviewers_court -->", ⟨1, [], ⟨none, none, none⟩⟩⟩)
        (fun _ => false)
        ⟨none, none, fun _ => some "mutation failed"⟩) =
      (⟨500, "mutation failed"⟩, some "mutation failed",
       [Step.auth 7, Step.load, Step.change REVIEWER_COURT]) := by
  refine ⟨?_, ?_, ?_⟩ <;> rfl

/-- Claim C8 (counterexample): a malformed JSON body on the
`pull_request` endpoint is claimed to yield a 400-class response; the
code instead returns the zero-value response (status code 0) together
with a non-nil Go error, so the response is not 400-class. -/
theorem C8_counterexample :
    (handleEvent "POST" "pull_request" (Except.error "unexpected end of JSON input")
        (Except.ok ⟨5, ⟨1, [], ⟨none, none, none⟩⟩⟩)
        (Except.ok ⟨6, "", ⟨1, [], ⟨none, none, none⟩⟩⟩)
        (fun _ => false) ⟨none, none, fun _ => none⟩) =
      (⟨0, ""⟩, some "Invalid JSON received: unexpected end of JSON input", []) ∧
    ¬(400 ≤ (0 : Nat) ∧ (0 : Nat) < 500) := by
  exact ⟨rfl, by decide⟩

/-- Claim C8 (amended): a request body that fails to parse as JSON
causes no downstream call for any of the three event kinds, but only
the `pull_request_review` endpoint answers with an explicit 400
response carrying a message; the `pull_request` and
`pull_request_review_comment` endpoints return the zero-value response
(status code 0) together with a non-nil Go error. -/
theorem C8_parse_failure (e : String)
    (prP : Except String PullRequestEventPayload)
    (rvP : Except String ReviewEventPayload)
    (cmP : Except String CommentEventPayload)
    (ids : Int → Bool) (d : Downstream) :
    handleEvent "POST" "pull_request" (Except.error e) rvP cmP ids d =
      (⟨0, ""⟩, some ("Invalid JSON received: " ++ e), []) ∧
    handleEvent "POST" "pull_request_review" prP (Except.error e) cmP ids d =
      (⟨400, "Unable to decode JSON - " ++ e⟩, none, []) ∧
    handleEvent "POST" "pull_request_review_comment" prP rvP (Except.error e) ids d =
      (⟨0, ""⟩, some ("Invalid JSON received: " ++ e), []) := by
  refine ⟨?_, ?_, ?_⟩ <;> rfl

/-- Claim C3 (counterexample): a review-comment body containing the
marker `<!-- unknown_court -->` is claimed to resolve to "no action"
with no label mutation; the code instead passes the captured name to
`changeCourt` unchecked, so a court change for the unknown name
"unknown_court" is invoked. -/
theorem C3_counterexample :
    (handleEvent "POST" "pull_request_review_comment"
        (Except.ok ⟨1, "opened", false, 0, none, none, ⟨1, [], ⟨none, none, none⟩⟩⟩)
        (Except.ok ⟨5, ⟨1, [], ⟨none, none, none⟩⟩⟩)
        (Except.ok ⟨6, "<!-- unknown_court -->", ⟨1, [], ⟨none, none, none⟩⟩⟩)
        (fun _ => false) ⟨none, none, fun _ => none⟩).2.2 =
      [Step.auth 6, Step.load, Step.change "unknown_court"] ∧
    "unknown_court" ≠ REVIEWER_COURT ∧ "unknown_court" ≠ AUTHOR_COURT := by
  exact ⟨rfl, by decide, by decide⟩

/-- Claim C3 (amended): the resolver scans the comment body for the
leftmost marker `<!-- name -->`; when a marker is present, a court
change is invoked with the captured name — whatever it is, known court
or not — and only when no marker is present does the event resolve to
no action.  In particular `"please review <!-- authors_court -->
thanks"` resolves to `authors_court` and a marker-free body resolves to
no action. -/
theorem C3_comment_directive
    (payload : CommentEventPayload)
    (prP : Except String PullRequestEventPayload)
    (rvP : Except String ReviewEventPayload)
    (ids : Int → Bool) (d : Downstream)
    (hauth : d.authErr = none) (hload : d.loadErr = none) :
    (∀ name, findCourtMarker payload.commentBody = some name →
      (handleEvent "POST" "pull_request_review_comment" prP rvP (Except.ok payload)
          ids d).2.2 =
        [Step.auth payload.installationId, Step.load, Step.change name]) ∧
    (findCourtMarker payload.commentBody = none →
      handleEvent "POST" "pull_request_review_comment" prP rvP (Except.ok payload)
          ids d =
        (⟨200, ""⟩, none, [Step.auth payload.installationId, Step.load])) ∧
    findCourtMarker "please review <!-- authors_court --> thanks" = some AUTHOR_COURT ∧
    findCourtMarker "<!-- unknown_court -->" = some "unknown_court" ∧
    findCourtMarker "There is no marker in this comment" = none := by
  obtain ⟨da, dl, dc⟩ := d
  simp only at hauth hload
  subst hauth hload
  refine ⟨?_, ?_, by rfl, by rfl, by rfl⟩
  · intro name hmark
    simp only [handleEvent]
    rw [hmark]
    rfl
  · intro hmark
    simp only [handleEvent]
    rw [hmark]
    rfl

/-- Claim C3 (witness for the amended theorem). -/
theorem C3_witness :
    (handleEvent "POST" "pull_request_review_comment"
        (Except.ok ⟨1, "opened", false, 0, none, none, ⟨1, [], ⟨none, none, none⟩⟩⟩)
        (Except.ok ⟨5, ⟨1, [], ⟨none, none, none⟩⟩⟩)
        (Except.ok ⟨6, "please review <!-- authors_court --> thanks",
          ⟨1, [], ⟨none, none, none⟩⟩⟩)
        (fun _ => false) ⟨none, none, fun _ => none⟩).2.2 =
      [Step.auth 6, Step.load, Step.change AUTHOR_COURT] :=
  (C3_comment_directive
      ⟨6, "please review <!-- authors_court --> thanks", ⟨1, [], ⟨none, none, none⟩⟩⟩
      (Except.ok ⟨1, "opened", false, 0, none, none, ⟨1, [], ⟨none, none, none⟩⟩⟩)
      (Except.ok ⟨5, ⟨1, [], ⟨none, none, none⟩⟩⟩)
      (fun _ => false) ⟨none, none, fun _ => none⟩ rfl rfl).1 AUTHOR_COURT (by rfl)

/-- Claim C5: the claim, the spec, and the code comment in main.go
(the line says the author has unlabeled, so assume the reviewer court)
all state that on an unlabeled event with no court label remaining, an
actor identical to the pull request author targets `reviewers_court`
and a different actor targets `authors_court`.  The code compares
`event.Sender.ID == event.PullRequest.User.ID`, two `*int64` operands
(go-github v17): separately unmarshaled fields are distinct
allocations, so the comparison is false even when both hold the same
id value, and the handler targets `authors_court`.  This theorem
evaluates the handler at the failing input (sender and author both
carry id value 42, in fresh allocations at addresses 1 and 2) and
shows the court change targets `authors_court`, not the claimed
`reviewers_court`; it also shows the comparison succeeds only on
pointer identity (same allocation) or two nil pointers, and that the
no-action clause of the claim (a known court label remaining) does
hold. -/
theorem C5_pointer_identity :
    (handleEvent "POST" "pull_request"
        (Except.ok ⟨9, "unlabeled", false, 0, some ⟨1, 42⟩, some ⟨2, 42⟩,
          ⟨1, [⟨5, "docs"⟩], ⟨none, none, none⟩⟩⟩)
        (Except.ok ⟨5, ⟨1, [], ⟨none, none, none⟩⟩⟩)
        (Except.ok ⟨6, "", ⟨1, [], ⟨none, none, none⟩⟩⟩)
        (fun i => i == 11) ⟨none, none, fun _ => none⟩).2.2 =
      [Step.auth 9, Step.load, Step.change AUTHOR_COURT] ∧
    AUTHOR_COURT ≠ REVIEWER_COURT ∧
    ptrEq (some ⟨1, 42⟩) (some ⟨2, 42⟩) = false ∧
    ptrEq (some ⟨1, 42⟩) (some ⟨1, 42⟩) = true ∧
    ptrEq none none = true ∧
    (handleEvent "POST" "pull_request"
        (Except.ok ⟨9, "unlabeled", false, 0, some ⟨1, 42⟩, some ⟨1, 42⟩,
          ⟨1, [⟨5, "docs"⟩], ⟨none, none, none⟩⟩⟩)
        (Except.ok ⟨5, ⟨1, [], ⟨none, none, none⟩⟩⟩)
        (Except.ok ⟨6, "", ⟨1, [], ⟨none, none, none⟩⟩⟩)
        (fun i => i == 11) ⟨none, none, fun _ => none⟩).2.2 =
      [Step.auth 9, Step.load, Step.change REVIEWER_COURT] ∧
    (handleEvent "POST" "pull_request"
        (Except.ok ⟨9, "unlabeled", false, 0, some ⟨1, 42⟩, some ⟨2, 42⟩,
          ⟨1, [⟨11, "reviewers_court"⟩], ⟨none, none, none⟩⟩⟩)
        (Except.ok ⟨5, ⟨1, [], ⟨none, none, none⟩⟩⟩)
        (Except.ok ⟨6, "", ⟨1, [], ⟨none, none, none⟩⟩⟩)
        (fun i => i == 11) ⟨none, none, fun _ => none⟩) =
      (⟨200, ""⟩, none, [Step.auth 9, Step.load]) := by
  refine ⟨by rfl, by decide, by rfl, by rfl, by rfl, by rfl, by rfl⟩

/-- Claim C6: the incremental applier removes the court label other
than the target strictly before adding the target; a removal error with
a 404 response is treated as success; any other removal error aborts
with that error and no addition is attempted; an addition failure
propagates as the error of the operation. -/
theorem C6_incremental_order (court : String) (pr : PullRequest)
    (removeOut : RemoveOutcome) (addErr : Option String) (owner repoName : String)
    (hrepo : getRepoOwner pr.baseRepo = GoResult.ok (owner, repoName)) :
    ((removeOut.errMsg = none ∨ removeOut.respStatus = some 404) →
      (changeCourt court pr removeOut addErr).2 =
        [NetCall.removeLabel owner repoName pr.number (otherCourt court),
         NetCall.addLabels owner repoName pr.number [court]] ∧
      (addErr = none → (changeCourt court pr removeOut addErr).1 = GoResult.ok ()) ∧
      (∀ e2, addErr = some e2 →
        (changeCourt court pr removeOut addErr).1 = GoResult.err e2)) ∧
    (∀ e, removeOut.errMsg = some e → removeOut.respStatus ≠ some 404 →
      changeCourt court pr removeOut addErr =
        (GoResult.err e,
         [NetCall.removeLabel owner repoName pr.number (otherCourt court)])) := by
  obtain ⟨em, rs⟩ := removeOut
  constructor
  · intro hok
    simp only [changeCourt, hrepo]
    rcases hok with h | h
    · simp only at h
      subst h
      cases addErr <;> simp
    · simp only at h
      subst h
      cases em with
      | none => cases addErr <;> simp
      | some e => cases addErr <;> simp
  · intro e hem hrs
    simp only at hem
    subst hem
    simp only at hrs
    simp only [changeCourt, hrepo]
    rw [if_neg hrs]

/-- Claim C6 (witness): a removal answered 404 is tolerated and the
addition still runs, at a concrete input. -/
theorem C6_witness :
    (changeCourt REVIEWER_COURT
        ⟨7, [], ⟨some ⟨some "octo"⟩, some "repo", none⟩⟩
        ⟨some "404 Not Found", some 404⟩ none).2 =
      [NetCall.removeLabel "octo" "repo" 7 (otherCourt REVIEWER_COURT),
       NetCall.addLabels "octo" "repo" 7 [REVIEWER_COURT]] ∧
    (changeCourt REVIEWER_COURT
        ⟨7, [], ⟨some ⟨some "octo"⟩, some "repo", none⟩⟩
        ⟨some "404 Not Found", some 404⟩ none).1 = GoResult.ok () := by
  have h := C6_incremental_order REVIEWER_COURT
    ⟨7, [], ⟨some ⟨some "octo"⟩, some "repo", none⟩⟩
    ⟨some "404 Not Found", some 404⟩ none "octo" "repo" rfl
  exact ⟨(h.1 (Or.inr rfl)).1, (h.1 (Or.inr rfl)).2.1 rfl⟩

/-- Claim C9 (counterexample): the token source is claimed to fail on
any non-2xx response; the code only fails for status ≥ 400, so a 301
response surfaced by the transport without error yields a token. -/
theorem C9_counterexample :
    installationTokenSourceToken none ⟨none, 301, "Moved Permanently"⟩
        ⟨some "tok", some 0⟩ = GoResult.ok ("tok", 0) ∧
    ¬(200 ≤ 301 ∧ 301 ≤ 299) := by
  exact ⟨rfl, by decide⟩

/-- Claim C9 (amended): the token source fails with an error carrying
the upstream status code and response body on any response with status
≥ 400 (in particular 403); responses below 400 with a parseable token
yield the token; and while the installation client cannot be built
(the credential-exchange failure surfaces from
`initClientForInstallation`), the handler attempts no court change for
any of the three event kinds. -/
theorem C9_token_exchange (newReqErr : Option String)
    (answer : TokenExchangeAnswer) (parsed : ParsedInstallationToken) :
    (newReqErr = none → answer.doErr = none → 400 ≤ answer.status →
      installationTokenSourceToken newReqErr answer parsed =
        GoResult.err ("Bad status code returned for access token url- "
          ++ toString answer.status ++ " " ++ answer.body)) ∧
    (∀ t exp, newReqErr = none → answer.doErr = none → answer.status < 400 →
      parsed.token = some t → parsed.expiresAt = some exp →
      installationTokenSourceToken newReqErr answer parsed = GoResult.ok (t, exp)) ∧
    (∀ (kind : String) (prP : Except String PullRequestEventPayload)
        (rvP : Except String ReviewEventPayload)
        (cmP : Except String CommentEventPayload)
        (ids : Int → Bool) (d : Downstream) (e : String) (c : String),
      d.authErr = some e →
      (kind = "pull_request" ∨ kind = "pull_request_review" ∨
       kind = "pull_request_review_comment") →
      Step.change c ∉ (handleEvent "POST" kind prP rvP cmP ids d).2.2) := by
  refine ⟨?_, ?_, ?_⟩
  · intro h1 h2 h3
    simp only [installationTokenSourceToken, h1, h2]
    rw [if_pos h3]
  · intro t exp h1 h2 h3 h4 h5
    simp only [installationTokenSourceToken, h1, h2, h4, h5]
    rw [if_neg (by omega)]
  · intro kind prP rvP cmP ids d e c hd hkind
    obtain ⟨da, dl, dc⟩ := d
    simp only at hd
    subst hd
    rcases hkind with h | h | h <;> subst h <;>
      · cases prP <;> cases rvP <;> cases cmP <;> simp [handleEvent]

/-- Claim C9 (witness): a 403 from the token endpoint at a concrete
input: the error carries the status and body, and no court change is
attempted by a handler whose client construction failed. -/
theorem C9_witness :
    installationTokenSourceToken none ⟨none, 403, "Forbidden"⟩ ⟨none, none⟩ =
      GoResult.err ("Bad status code returned for access token url- "
        ++ toString (403 : Nat) ++ " " ++ "Forbidden") ∧
    Step.change REVIEWER_COURT ∉
      (handleEvent "POST" "pull_request"
        (Except.ok ⟨1, "opened", true, 0, none, none, ⟨1, [], ⟨none, none, none⟩⟩⟩)
        (Except.ok ⟨5, ⟨1, [], ⟨none, none, none⟩⟩⟩)
        (Except.ok ⟨6, "", ⟨1, [], ⟨none, none, none⟩⟩⟩)
        (fun _ => false) ⟨some "TokenExchangeError", none, fun _ => none⟩).2.2 := by
  have h := C9_token_exchange none ⟨none, 403, "Forbidden"⟩ ⟨none, none⟩
  exact ⟨h.1 rfl rfl (by decide),
    h.2.2 "pull_request"
      (Except.ok ⟨1, "opened", true, 0, none, none, ⟨1, [], ⟨none, none, none⟩⟩⟩)
      (Except.ok ⟨5, ⟨1, [], ⟨none, none, none⟩⟩⟩)
      (Except.ok ⟨6, "", ⟨1, [], ⟨none, none, none⟩⟩⟩)
      (fun _ => false) ⟨some "TokenExchangeError", none, fun _ => none⟩
      "TokenExchangeError" REVIEWER_COURT rfl (Or.inl rfl)⟩

/-- Claim C7: starting from an empty cache against a repository with
neither court label, `loadLabels` creates exactly the two labels
(one get + one create per name, nothing else), records both identifiers
in the cache, and returns success; once the cache holds as many
identifiers as there are known court-label names, any call returns
success with no network call; a fetch failure other than not-found
aborts with that error (the call does not report success), and a create
failure aborts with a wrapped error.  The failure conjuncts cover a
failure at either iterated name: at the first name (no label recorded
yet), and at the second name after the first label was fetched or
created and recorded — the one scenario in which partial cache
population exists — where the call still returns the error, never
success. -/
theorem C7_registry (server : LabelServer) (repo : Repo)
    (owner repoName : String) (r a : Label)
    (hrepo : getRepoOwner repo = GoResult.ok (owner, repoName))
    (hgr : server.get REVIEWER_COURT = GetLabelResult.notFound)
    (hga : server.get AUTHOR_COURT = GetLabelResult.notFound)
    (hcr : server.create REVIEWER_COURT = GoResult.ok r)
    (hca : server.create AUTHOR_COURT = GoResult.ok a)
    (hne : r.id ≠ a.id) :
    loadLabels server repo ⟨[], []⟩ =
      (GoResult.ok ⟨[r.id, a.id], [(a.name, a), (r.name, r)]⟩,
       [NetCall.getLabel owner repoName REVIEWER_COURT,
        NetCall.createLabel owner repoName REVIEWER_COURT,
        NetCall.getLabel owner repoName AUTHOR_COURT,
        NetCall.createLabel owner repoName AUTHOR_COURT]) ∧
    (∀ (server2 : LabelServer) (repo2 : Repo) (cache : Cache),
      cache.labelIds.length = ReviewerLabelNames.length →
      loadLabels server2 repo2 cache = (GoResult.ok cache, [])) ∧
    (∀ (server3 : LabelServer) (msg : String),
      server3.get REVIEWER_COURT = GetLabelResult.failed msg →
      loadLabels server3 repo ⟨[], []⟩ =
        (GoResult.err msg, [NetCall.getLabel owner repoName REVIEWER_COURT])) ∧
    (∀ (server4 : LabelServer) (msg : String),
      server4.get REVIEWER_COURT = GetLabelResult.notFound →
      server4.create REVIEWER_COURT = GoResult.err msg →
      loadLabels server4 repo ⟨[], []⟩ =
        (GoResult.err ("Unable to create label " ++ REVIEWER_COURT ++ ": " ++ msg),
         [NetCall.getLabel owner repoName REVIEWER_COURT,
          NetCall.createLabel owner repoName REVIEWER_COURT])) ∧
    (∀ (server5 : LabelServer) (r2 : Label) (msg : String),
      server5.get REVIEWER_COURT = GetLabelResult.notFound →
      server5.create REVIEWER_COURT = GoResult.ok r2 →
      server5.get AUTHOR_COURT = GetLabelResult.failed msg →
      loadLabels server5 repo ⟨[], []⟩ =
        (GoResult.err msg,
         [NetCall.getLabel owner repoName REVIEWER_COURT,
          NetCall.createLabel owner repoName REVIEWER_COURT,
          NetCall.getLabel owner repoName AUTHOR_COURT])) ∧
    (∀ (server6 : LabelServer) (r2 : Label) (msg : String),
      server6.get REVIEWER_COURT = GetLabelResult.notFound →
      server6.create REVIEWER_COURT = GoResult.ok r2 →
      server6.get AUTHOR_COURT = GetLabelResult.notFound →
      server6.create AUTHOR_COURT = GoResult.err msg →
      loadLabels server6 repo ⟨[], []⟩ =
        (GoResult.err ("Unable to create label " ++ AUTHOR_COURT ++ ": " ++ msg),
         [NetCall.getLabel owner repoName REVIEWER_COURT,
          NetCall.createLabel owner repoName REVIEWER_COURT,
          NetCall.getLabel owner repoName AUTHOR_COURT,
          NetCall.createLabel owner repoName AUTHOR_COURT])) ∧
    (∀ (server7 : LabelServer) (r2 : Label) (msg : String),
      server7.get REVIEWER_COURT = GetLabelResult.found r2 →
      server7.get AUTHOR_COURT = GetLabelResult.failed msg →
      loadLabels server7 repo ⟨[], []⟩ =
        (GoResult.err msg,
         [NetCall.getLabel owner repoName REVIEWER_COURT,
          NetCall.getLabel owner repoName AUTHOR_COURT])) := by
  refine ⟨?_, ?_, ?_, ?_, ?_, ?_, ?_⟩
  · have hcontains : ([r.id] : List Int).contains a.id = false := by
      simp [List.contains]
      omega
    simp only [loadLabels, ReviewerLabelNames, List.length_nil, List.length_cons,
      hrepo, loadLabelsLoop, hgr, hga, hcr, hca, recordLabel, insertId,
      List.contains_nil, Bool.false_eq_true, if_false, List.nil_append,
      hcontains, List.cons_append]
    rfl
  · intro server2 repo2 cache h
    simp only [loadLabels, h, if_pos rfl, if_true]
  · intro server3 msg hfail
    simp only [loadLabels, ReviewerLabelNames, List.length_nil, List.length_cons,
      hrepo, loadLabelsLoop, hfail]
    rfl
  · intro server4 msg hnf hfail
    simp only [loadLabels, ReviewerLabelNames, List.length_nil, List.length_cons,
      hrepo, loadLabelsLoop, hnf, hfail]
    rfl
  · intro server5 r2 msg h1 h2 h3
    simp only [loadLabels, ReviewerLabelNames, List.length_nil, List.length_cons,
      hrepo, loadLabelsLoop, h1, h2, h3]
    rfl
  · intro server6 r2 msg h1 h2 h3 h4
    simp only [loadLabels, ReviewerLabelNames, List.length_nil, List.length_cons,
      hrepo, loadLabelsLoop, h1, h2, h3, h4]
    rfl
  · intro server7 r2 msg h1 h2
    simp only [loadLabels, ReviewerLabelNames, List.length_nil, List.length_cons,
      hrepo, loadLabelsLoop, h1, h2]
    rfl

/-- Claim C7 (witness): the theorem applied at a concrete server that
has neither label and creates them with ids 11 and 12. -/
theorem C7_witness :
    loadLabels
        ⟨fun _ => GetLabelResult.notFound,
         fun n => if n == REVIEWER_COURT then GoResult.ok ⟨11, REVIEWER_COURT⟩
           else GoResult.ok ⟨12, AUTHOR_COURT⟩⟩
        ⟨some ⟨some "octo"⟩, some "repo", none⟩ ⟨[], []⟩ =
      (GoResult.ok ⟨[11, 12], [(AUTHOR_COURT, ⟨12, AUTHOR_COURT⟩),
        (REVIEWER_COURT, ⟨11, REVIEWER_COURT⟩)]⟩,
       [NetCall.getLabel "octo" "repo" REVIEWER_COURT,
        NetCall.createLabel "octo" "repo" REVIEWER_COURT,
        NetCall.getLabel "octo" "repo" AUTHOR_COURT,
        NetCall.createLabel "octo" "repo" AUTHOR_COURT]) :=
  (C7_registry
      ⟨fun _ => GetLabelResult.notFound,
       fun n => if n == REVIEWER_COURT then GoResult.ok ⟨11, REVIEWER_COURT⟩
         else GoResult.ok ⟨12, AUTHOR_COURT⟩⟩
      ⟨some ⟨some "octo"⟩, some "repo", none⟩ "octo" "repo"
      ⟨11, REVIEWER_COURT⟩ ⟨12, AUTHOR_COURT⟩ rfl rfl rfl (by rfl) (by rfl)
      (by decide)).1

theorem splitSlashAux_no_slash (b : List Char) :
    ∀ acc : List Char, (∀ c ∈ b, ¬ c = '/') →
    splitSlashAux b acc = [acc.reverse ++ b] := by
  induction b with
  | nil => intro acc _; simp [splitSlashAux]
  | cons c rest ih =>
    intro acc hb
    have hc : ¬ c = '/' := hb c (List.mem_cons_self c rest)
    rw [splitSlashAux, if_neg hc, ih (c :: acc) (fun x hx => hb x (List.mem_cons_of_mem c hx))]
    simp

theorem splitSlashAux_split (a : List Char) :
    ∀ (acc b : List Char), (∀ c ∈ a, ¬ c = '/') → (∀ c ∈ b, ¬ c = '/') →
    splitSlashAux (a ++ '/' :: b) acc = [acc.reverse ++ a, b] := by
  induction a with
  | nil =>
    intro acc b _ hb
    rw [List.nil_append, splitSlashAux, if_pos rfl,
      splitSlashAux_no_slash b [] hb]
    simp
  | cons c rest ih =>
    intro acc b ha hb
    have hc : ¬ c = '/' := ha c (List.mem_cons_self c rest)
    rw [List.cons_append, splitSlashAux, if_neg hc,
      ih (c :: acc) b (fun x hx => ha x (List.mem_cons_of_mem c hx)) hb]
    simp

theorem countP_slash_split (a b : List Char)
    (ha : ∀ c ∈ a, ¬ c = '/') (hb : ∀ c ∈ b, ¬ c = '/') :
    (a ++ '/' :: b).countP (fun c => c == '/') = 1 := by
  rw [List.countP_append, List.countP_cons_of_pos _ _ (by simp)]
  have h0a : a.countP (fun c => c == '/') = 0 := by
    rw [List.countP_eq_zero]
    intro c hc
    simpa using ha c hc
  have h0b : b.countP (fun c => c == '/') = 0 := by
    rw [List.countP_eq_zero]
    intro c hc
    simpa using hb c hc
  omega

/-- Claim C10 (counterexample): the claim says that whenever
`Owner.Name` is non-nil the function returns the owner name and the
repository `Name` field; with a nil `Name` pointer the code instead
panics on the `*repo.Name` dereference and returns nothing. -/
theorem C10_counterexample :
    getRepoOwner ⟨some ⟨some "octo"⟩, none, none⟩ = GoResult.panicked := by
  rfl

/-- Claim C10 (amended): `getRepoOwner` returns `(Owner.Name, Name)`
when both pointers are set; when `Owner.Name` is nil and `FullName`
contains exactly one slash it returns the parts before and after the
slash; when `Owner.Name` is nil and `FullName` has slash count ≠ 1 it
returns an error; but when a dereferenced pointer (`Name` when
`Owner.Name` is set, `FullName` or the whole `Owner` otherwise) is nil,
the function panics instead of returning. -/
theorem C10_repo_owner (repo : Repo) :
    (∀ o ow n, repo.owner = some o → o.name = some ow → repo.name = some n →
      getRepoOwner repo = GoResult.ok (ow, n)) ∧
    (∀ o fn a b, repo.owner = some o → o.name = none →
      repo.fullName = some fn → fn.data = a ++ '/' :: b →
      (∀ c ∈ a, ¬ c = '/') → (∀ c ∈ b, ¬ c = '/') →
      getRepoOwner repo = GoResult.ok (String.mk a, String.mk b)) ∧
    (∀ o fn, repo.owner = some o → o.name = none → repo.fullName = some fn →
      countSlash fn ≠ 1 →
      getRepoOwner repo =
        GoResult.err "cant determine repository information from event") ∧
    (repo.owner = none → getRepoOwner repo = GoResult.panicked) ∧
    (∀ o ow, repo.owner = some o → o.name = some ow → repo.name = none →
      getRepoOwner repo = GoResult.panicked) ∧
    (∀ o, repo.owner = some o → o.name = none → repo.fullName = none →
      getRepoOwner repo = GoResult.panicked) := by
  refine ⟨?_, ?_, ?_, ?_, ?_, ?_⟩
  · intro o ow n h1 h2 h3
    simp [getRepoOwner, h1, h2, h3]
  · intro o fn a b h1 h2 h3 hdata ha hb
    have hcount : countSlash fn = 1 := by
      rw [countSlash, hdata]
      exact countP_slash_split a b ha hb
    have hsplit : splitOnSlash fn.data = [a, b] := by
      rw [hdata, splitOnSlash, splitSlashAux_split a [] b ha hb]
      simp
    simp [getRepoOwner, h1, h2, h3, hcount, hsplit]
  · intro o fn h1 h2 h3 hcount
    simp [getRepoOwner, h1, h2, h3, hcount]
  · intro h1
    simp [getRepoOwner, h1]
  · intro o ow h1 h2 h3
    simp [getRepoOwner, h1, h2, h3]
  · intro o h1 h2 h3
    simp [getRepoOwner, h1, h2, h3]

/-- Claim C10 (witness): the theorem applied at concrete repositories
exercising the owner-name path and the full-name path. -/
theorem C10_witness :
    getRepoOwner ⟨some ⟨some "octo"⟩, some "repo", none⟩ = GoResult.ok ("octo", "repo") ∧
    getRepoOwner ⟨some ⟨none⟩, none, some "alice/proj"⟩ =
      GoResult.ok (String.mk ['a', 'l', 'i', 'c', 'e'], String.mk ['p', 'r', 'o', 'j']) := by
  constructor
  · exact (C10_repo_owner ⟨some ⟨some "octo"⟩, some "repo", none⟩).1
      ⟨some "octo"⟩ "octo" "repo" rfl rfl rfl
  · exact (C10_repo_owner ⟨some ⟨none⟩, none, some "alice/proj"⟩).2.1
      ⟨none⟩ "alice/proj" ['a', 'l', 'i', 'c', 'e'] ['p', 'r', 'o', 'j']
      rfl rfl rfl (by rfl) (by decide) (by decide)

theorem rewriteLabels_shortCircuit (court : String) (labelIds : Int → Bool)
    (courtLabels : String → Option Label) (l : Label)
    (hid : labelIds l.id = true) (hname : l.name = court) :
    ∀ (pre post : List (Option Label)), (∀ o ∈ pre, ∃ y, o = some y) →
    rewriteLabels court labelIds courtLabels (pre ++ some l :: post) =
      RewriteResult.alreadyLabeled := by
  intro pre
  induction pre with
  | nil =>
    intro post _
    simp [rewriteLabels, hid, hname]
  | cons o rest ih =>
    intro post hpre
    obtain ⟨y, hy⟩ := hpre o (List.mem_cons_self o rest)
    subst hy
    rw [List.cons_append]
    simp only [rewriteLabels,
      ih post (fun x hx => hpre x (List.mem_cons_of_mem (some y) hx))]
    split
    · split <;> rfl
    · rfl

theorem rewriteLabels_pass (court : String) (labelIds : Int → Bool)
    (courtLabels : String → Option Label) :
    ∀ ls : List Label, (∀ x ∈ ls, labelIds x.id = false) →
    rewriteLabels court labelIds courtLabels (ls.map some) =
      RewriteResult.rewritten (ls.map some) := by
  intro ls
  induction ls with
  | nil => intro _; rfl
  | cons x t ih =>
    intro hls
    have hx : labelIds x.id = false := hls x (List.mem_cons_self x t)
    rw [List.map_cons]
    simp only [rewriteLabels, hx, Bool.false_eq_true, if_false,
      ih (fun z hz => hls z (List.mem_cons_of_mem x hz))]

theorem rewriteLabels_subst (court : String) (labelIds : Int → Bool)
    (courtLabels : String → Option Label) (l : Label)
    (hid : labelIds l.id = true) (hname : ¬ l.name = court) :
    ∀ (pre post : List Label),
    (∀ x ∈ pre, labelIds x.id = false) → (∀ x ∈ post, labelIds x.id = false) →
    rewriteLabels court labelIds courtLabels (pre.map some ++ some l :: post.map some) =
      RewriteResult.rewritten (pre.map some ++ courtLabels court :: post.map some) := by
  intro pre
  induction pre with
  | nil =>
    intro post _ hpost
    simp only [List.map_nil, List.nil_append, rewriteLabels, hid, if_true,
      hname, if_false, rewriteLabels_pass court labelIds courtLabels post hpost]
  | cons x t ih =>
    intro post hpre hpost
    have hx : labelIds x.id = false := hpre x (List.mem_cons_self x t)
    rw [List.map_cons, List.cons_append]
    simp only [rewriteLabels, hx, Bool.false_eq_true, if_false,
      ih post (fun z hz => hpre z (List.mem_cons_of_mem x hz)) hpost,
      List.cons_append]

theorem rewriteLabels_second (court : String) (labelIds : Int → Bool)
    (courtLabels : String → Option Label) (tL : Label)
    (hc : courtLabels court = some tL) (htname : tL.name = court)
    (htid : labelIds tL.id = true) :
    ∀ (ls : List (Option Label)) (nl : List (Option Label)),
    (∀ o ∈ ls, ∃ y, o = some y) →
    (∃ o ∈ ls, ∃ y, o = some y ∧ labelIds y.id = true) →
    rewriteLabels court labelIds courtLabels ls = RewriteResult.rewritten nl →
    rewriteLabels court labelIds courtLabels nl = RewriteResult.alreadyLabeled := by
  intro ls
  induction ls with
  | nil =>
    intro nl _ hex _
    obtain ⟨o, ho, _⟩ := hex
    exact absurd ho (List.not_mem_nil o)
  | cons o rest ih =>
    intro nl hsome hex hrw
    obtain ⟨y, hy⟩ := hsome o (List.mem_cons_self o rest)
    subst hy
    by_cases h1 : labelIds y.id
    · by_cases h2 : y.name = court
      · rw [rewriteLabels, if_pos h1, if_pos h2] at hrw
        cases hrw
      · rw [rewriteLabels, if_pos h1, if_neg h2] at hrw
        rcases hrest : rewriteLabels court labelIds courtLabels rest with _ | _ | r
        · rw [hrest] at hrw; cases hrw
        · rw [hrest] at hrw; cases hrw
        · rw [hrest] at hrw
          cases hrw
          rw [hc]
          exact rewriteLabels_shortCircuit court labelIds courtLabels tL htid htname
            [] r (by intro z hz; exact absurd hz (List.not_mem_nil z))
    · rw [rewriteLabels, if_neg h1] at hrw
      rcases hrest : rewriteLabels court labelIds courtLabels rest with _ | _ | r
      · rw [hrest] at hrw; cases hrw
      · rw [hrest] at hrw; cases hrw
      · rw [hrest] at hrw
        cases hrw
        have hex2 : ∃ o ∈ rest, ∃ z, o = some z ∧ labelIds z.id = true := by
          obtain ⟨o2, ho2, z, hz, hzid⟩ := hex
          rcases List.mem_cons.mp ho2 with he | hm
          · exfalso
            rw [he] at hz
            cases hz
            rw [hzid] at h1
            exact h1 rfl
          · exact ⟨o2, hm, z, hz, hzid⟩
        have hrec := ih r (fun z hz => hsome z (List.mem_cons_of_mem (some y) hz))
          hex2 hrest
        rw [rewriteLabels, if_neg h1, hrec]

theorem namesOf_map_some (ls : List Label) :
    (ls.map some).filterMap (fun o => o.map (fun l => l.name)) =
      ls.map (fun l => l.name) := by
  induction ls with
  | nil => rfl
  | cons x t ih => simp [ih]

theorem filter_bne_nonCourt (other : String)
    (ho : other = REVIEWER_COURT ∨ other = AUTHOR_COURT) :
    ∀ S : List String,
    (S.filter (fun m => m != other)).filter nonCourtName = S.filter nonCourtName := by
  intro S
  induction S with
  | nil => rfl
  | cons x t ih =>
    by_cases hx : x = other
    · subst hx
      have h1 : (x != x) = false := bne_self_eq_false x
      have h2 : nonCourtName x = false := nonCourtName_court x ho
      simp [List.filter_cons, h1, h2, ih]
    · have h1 : (x != other) = true := bne_iff_ne.mpr hx
      by_cases h2 : nonCourtName x = true
      · simp [List.filter_cons, h1, h2, ih]
      · simp [List.filter_cons, h1, h2, ih]

theorem not_mem_filter_bne (other : String) (S : List String) :
    other ∉ S.filter (fun m => m != other) := by
  intro hm
  have := List.mem_filter.mp hm
  rw [bne_self_eq_false] at this
  exact Bool.false_ne_true this.2

/-- Claim C1 (counterexample): the claim says the applier calls no
mutation endpoint when the snapshot already contains the target court
label; the current incremental applier (main.go) never inspects the
snapshot and issues its remove and add calls regardless: here the
snapshot contains exactly the target label, yet the trace holds two
mutation calls. -/
theorem C1_counterexample :
    (⟨1, REVIEWER_COURT⟩ : Label) ∈ ([⟨1, REVIEWER_COURT⟩] : List Label) ∧
    (changeCourt REVIEWER_COURT
        ⟨7, [⟨1, REVIEWER_COURT⟩], ⟨some ⟨some "octo"⟩, some "repo", none⟩⟩
        ⟨some "404 Not Found", some 404⟩ none).2 =
      [NetCall.removeLabel "octo" "repo" 7 AUTHOR_COURT,
       NetCall.addLabels "octo" "repo" 7 [REVIEWER_COURT]] ∧
    (changeCourt REVIEWER_COURT
        ⟨7, [⟨1, REVIEWER_COURT⟩], ⟨some ⟨some "octo"⟩, some "repo", none⟩⟩
        ⟨some "404 Not Found", some 404⟩ none).2 ≠ [] := by
  refine ⟨by decide, by rfl, by decide⟩

/-- Claim C1 (amended): the short-circuit and idempotence guarantees
hold for the rewrite-strategy applier (part_000) and only for it.  If
the snapshot (with no nil entries) contains the target court label as a
known court label, the applier performs no mutating network call; and
if the snapshot contains any known court label, a second successive
application with the same target performs no mutating network call.
The incremental applier (main.go) issues its remove and add calls on
every invocation (counterexample), relying on the endpoint semantics
for state-level idempotence. -/
theorem C1_rewrite_idempotent (court : String) (labelIds : Int → Bool)
    (courtLabels : String → Option Label) (owner repoName : String) (number : Int)
    (editErr editErr2 : Option String) (tL : Label)
    (hc : courtLabels court = some tL) (htname : tL.name = court)
    (htid : labelIds tL.id = true) :
    (∀ (pre post : List (Option Label)) (l : Label),
      (∀ o ∈ pre, ∃ y, o = some y) → labelIds l.id = true → l.name = court →
      (changeCourtRewrite court labelIds courtLabels (pre ++ some l :: post)
        owner repoName number editErr).2.1 = []) ∧
    (∀ labels : List (Option Label),
      (∀ o ∈ labels, ∃ y, o = some y) →
      (∃ o ∈ labels, ∃ y, o = some y ∧ labelIds y.id = true) →
      (changeCourtRewrite court labelIds courtLabels
        (changeCourtRewrite court labelIds courtLabels labels
          owner repoName number editErr).2.2
        owner repoName number editErr2).2.1 = []) := by
  constructor
  · intro pre post l hpre hid hname
    rw [changeCourtRewrite,
      rewriteLabels_shortCircuit court labelIds courtLabels l hid hname pre post hpre]
  · intro labels hsome hex
    rcases h1 : rewriteLabels court labelIds courtLabels labels with _ | _ | nl
    · simp [changeCourtRewrite, h1]
    · simp [changeCourtRewrite, h1]
    · have h2 := rewriteLabels_second court labelIds courtLabels tL hc htname htid
        labels nl hsome hex h1
      cases editErr <;> simp [changeCourtRewrite, h1, h2]

/-- Claim C1 (witness): the rewrite applier at a concrete snapshot
already carrying the target label makes no network call. -/
theorem C1_witness :
    (changeCourtRewrite REVIEWER_COURT (fun i => i == 1)
        (fun n => if n == REVIEWER_COURT then some ⟨1, REVIEWER_COURT⟩ else none)
        [some ⟨1, REVIEWER_COURT⟩] "octo" "repo" 7 none).2.1 = [] :=
  (C1_rewrite_idempotent REVIEWER_COURT (fun i => i == 1)
      (fun n => if n == REVIEWER_COURT then some ⟨1, REVIEWER_COURT⟩ else none)
      "octo" "repo" 7 none none ⟨1, REVIEWER_COURT⟩ (by rfl) rfl (by rfl)).1
    [] [] ⟨1, REVIEWER_COURT⟩
    (fun o ho => absurd ho (List.not_mem_nil o)) (by rfl) rfl

/-- Claim C2 (counterexample): the claim says both strategies establish
the postcondition "carries the target court label" on success; the
rewrite-strategy applier, given a snapshot with no court label at all,
persists the snapshot unchanged, so after a successful call the pull
request still does not carry the target label. -/
theorem C2_counterexample :
    (changeCourtRewrite REVIEWER_COURT (fun i => i == 1 || i == 2)
        (fun n => if n == REVIEWER_COURT then some ⟨1, REVIEWER_COURT⟩
          else if n == AUTHOR_COURT then some ⟨2, AUTHOR_COURT⟩ else none)
        [some ⟨5, "docs"⟩] "octo" "repo" 7 none).1 = GoResult.ok () ∧
    applyCalls ["docs"]
      (changeCourtRewrite REVIEWER_COURT (fun i => i == 1 || i == 2)
        (fun n => if n == REVIEWER_COURT then some ⟨1, REVIEWER_COURT⟩
          else if n == AUTHOR_COURT then some ⟨2, AUTHOR_COURT⟩ else none)
        [some ⟨5, "docs"⟩] "octo" "repo" 7 none).2.1 = ["docs"] ∧
    REVIEWER_COURT ∉ applyCalls ["docs"]
      (changeCourtRewrite REVIEWER_COURT (fun i => i == 1 || i == 2)
        (fun n => if n == REVIEWER_COURT then some ⟨1, REVIEWER_COURT⟩
          else if n == AUTHOR_COURT then some ⟨2, AUTHOR_COURT⟩ else none)
        [some ⟨5, "docs"⟩] "octo" "repo" 7 none).2.1 := by
  refine ⟨by rfl, by rfl, by decide⟩

/-- Claim C2 (amended): after a successful `applyCourt(T)`, the pull
request carries T, not the other court label, and the non-court labels
are exactly the ones carried before, in order — unconditionally for the
incremental strategy; for the rewrite strategy this holds provided the
snapshot carries exactly one court label (the documented well-formed
state); with no court label present the rewrite strategy does not add T
(counterexample). -/
theorem C2_postconditions :
    (∀ (court : String) (pr : PullRequest) (removeOut : RemoveOutcome)
        (owner repoName : String),
      (court = REVIEWER_COURT ∨ court = AUTHOR_COURT) →
      getRepoOwner pr.baseRepo = GoResult.ok (owner, repoName) →
      (removeOut.errMsg = none ∨ removeOut.respStatus = some 404) →
      (changeCourt court pr removeOut none).1 = GoResult.ok () ∧
      court ∈ applyCalls (pr.labels.map (fun l => l.name))
        (changeCourt court pr removeOut none).2 ∧
      otherCourt court ∉ applyCalls (pr.labels.map (fun l => l.name))
        (changeCourt court pr removeOut none).2 ∧
      (applyCalls (pr.labels.map (fun l => l.name))
          (changeCourt court pr removeOut none).2).filter nonCourtName =
        (pr.labels.map (fun l => l.name)).filter nonCourtName) ∧
    (∀ (court : String) (labelIds : Int → Bool) (courtLabels : String → Option Label)
        (tL : Label) (pre post : List Label) (l : Label)
        (owner repoName : String) (number : Int),
      (court = REVIEWER_COURT ∨ court = AUTHOR_COURT) →
      courtLabels court = some tL → tL.name = court →
      labelIds l.id = true → (l.name = court ∨ l.name = otherCourt court) →
      (∀ x ∈ pre ++ post, labelIds x.id = false ∧ nonCourtName x.name = true) →
      (changeCourtRewrite court labelIds courtLabels ((pre ++ l :: post).map some)
          owner repoName number none).1 = GoResult.ok () ∧
      court ∈ applyCalls ((pre ++ l :: post).map (fun x => x.name))
        (changeCourtRewrite court labelIds courtLabels ((pre ++ l :: post).map some)
          owner repoName number none).2.1 ∧
      otherCourt court ∉ applyCalls ((pre ++ l :: post).map (fun x => x.name))
        (changeCourtRewrite court labelIds courtLabels ((pre ++ l :: post).map some)
          owner repoName number none).2.1 ∧
      (applyCalls ((pre ++ l :: post).map (fun x => x.name))
          (changeCourtRewrite court labelIds courtLabels ((pre ++ l :: post).map some)
            owner repoName number none).2.1).filter nonCourtName =
        ((pre ++ l :: post).map (fun x => x.name)).filter nonCourtName) := by
  constructor
  · intro court pr removeOut owner repoName hcourt hrepo hok
    obtain ⟨em, rs⟩ := removeOut
    have key : changeCourt court pr ⟨em, rs⟩ none =
        (GoResult.ok (),
         [NetCall.removeLabel owner repoName pr.number (otherCourt court),
          NetCall.addLabels owner repoName pr.number [court]]) := by
      rcases hok with h | h
      · simp only at h
        subst h
        simp [changeCourt, hrepo]
      · simp only at h
        subst h
        cases em <;> simp [changeCourt, hrepo]
    rw [key]
    have hother := otherCourt_isCourt court hcourt
    have hne : otherCourt court ≠ court := otherCourt_ne court hcourt
    have happ : applyCalls (pr.labels.map (fun l => l.name))
        [NetCall.removeLabel owner repoName pr.number (otherCourt court),
         NetCall.addLabels owner repoName pr.number [court]] =
        (if ((pr.labels.map (fun l => l.name)).filter
              (fun m => m != otherCourt court)).contains court = true then
          (pr.labels.map (fun l => l.name)).filter (fun m => m != otherCourt court)
         else
          (pr.labels.map (fun l => l.name)).filter (fun m => m != otherCourt court)
            ++ [court]) := rfl
    refine ⟨rfl, ?_, ?_, ?_⟩
    · rw [happ]
      by_cases hcont : ((pr.labels.map (fun l => l.name)).filter
          (fun m => m != otherCourt court)).contains court = true
      · rw [if_pos hcont]
        exact List.elem_iff.mp hcont
      · rw [if_neg hcont]
        exact List.mem_append_right _ (List.mem_singleton.mpr rfl)
    · rw [happ]
      by_cases hcont : ((pr.labels.map (fun l => l.name)).filter
          (fun m => m != otherCourt court)).contains court = true
      · rw [if_pos hcont]
        exact not_mem_filter_bne (otherCourt court) _
      · rw [if_neg hcont]
        intro hm
        rcases List.mem_append.mp hm with hm1 | hm2
        · exact not_mem_filter_bne (otherCourt court) _ hm1
        · exact hne (List.mem_singleton.mp hm2)
    · rw [happ]
      by_cases hcont : ((pr.labels.map (fun l => l.name)).filter
          (fun m => m != otherCourt court)).contains court = true
      · rw [if_pos hcont]
        exact filter_bne_nonCourt (otherCourt court) hother _
      · rw [if_neg hcont, List.filter_append]
        have hnc : nonCourtName court = false := nonCourtName_court court hcourt
        simp only [List.filter_cons, hnc, Bool.false_eq_true, if_false, List.filter_nil,
          List.append_nil]
        exact filter_bne_nonCourt (otherCourt court) hother _
  · intro court labelIds courtLabels tL pre post l owner repoName number
      hcourt hc htname hlid hlname hrest
    have hother := otherCourt_isCourt court hcourt
    have hne : otherCourt court ≠ court := otherCourt_ne court hcourt
    have hpreid : ∀ x ∈ pre, labelIds x.id = false :=
      fun x hx => (hrest x (List.mem_append_left post hx)).1
    have hpostid : ∀ x ∈ post, labelIds x.id = false :=
      fun x hx => (hrest x (List.mem_append_right pre hx)).1
    have hprenc : ∀ x ∈ pre, nonCourtName x.name = true :=
      fun x hx => (hrest x (List.mem_append_left post hx)).2
    have hpostnc : ∀ x ∈ post, nonCourtName x.name = true :=
      fun x hx => (hrest x (List.mem_append_right pre hx)).2
    have hdec : (pre ++ l :: post).map some =
        pre.map some ++ some l :: post.map some := by simp
    have hnames : (pre ++ l :: post).map (fun x => x.name) =
        pre.map (fun x => x.name) ++ l.name :: post.map (fun x => x.name) := by simp
    rcases hlname with hln | hln
    · have hrw : rewriteLabels court labelIds courtLabels
          ((pre ++ l :: post).map some) = RewriteResult.alreadyLabeled := by
        rw [hdec]
        refine rewriteLabels_shortCircuit court labelIds courtLabels l hlid hln
          (pre.map some) (post.map some) ?_
        intro o ho
        obtain ⟨y, _, hyeq⟩ := List.mem_map.mp ho
        exact ⟨y, hyeq.symm⟩
      rw [changeCourtRewrite, hrw]
      refine ⟨rfl, ?_, ?_, rfl⟩
      · show court ∈ (pre ++ l :: post).map (fun x => x.name)
        exact List.mem_map.mpr
          ⟨l, List.mem_append_right pre (List.mem_cons_self l post), hln⟩
      · show otherCourt court ∉ (pre ++ l :: post).map (fun x => x.name)
        intro hm
        obtain ⟨x, hx, hxe⟩ := List.mem_map.mp hm
        rcases List.mem_append.mp hx with hx1 | hx2
        · exact nonCourtName_ne_court x.name (otherCourt court) hother
            (hprenc x hx1) hxe
        · rcases List.mem_cons.mp hx2 with hxl | hx3
          · subst hxl
            rw [hln] at hxe
            exact hne hxe.symm
          · exact nonCourtName_ne_court x.name (otherCourt court) hother
              (hpostnc x hx3) hxe
    · have hncourt : ¬ l.name = court := by
        rw [hln]; exact hne
      have hrw : rewriteLabels court labelIds courtLabels
          ((pre ++ l :: post).map some) =
          RewriteResult.rewritten (pre.map some ++ some tL :: post.map some) := by
        rw [hdec, rewriteLabels_subst court labelIds courtLabels l hlid hncourt
          pre post hpreid hpostid, hc]
      rw [changeCourtRewrite, hrw]
      have hfinal : applyCalls ((pre ++ l :: post).map (fun x => x.name))
          [NetCall.editPR owner repoName number
            (pre.map some ++ some tL :: post.map some)] =
          pre.map (fun x => x.name) ++ tL.name :: post.map (fun x => x.name) := by
        show (pre.map some ++ some tL :: post.map some).filterMap
            (fun o => o.map (fun l2 => l2.name)) = _
        rw [List.filterMap_append, List.filterMap_cons]
        simp [namesOf_map_some]
      refine ⟨rfl, ?_, ?_, ?_⟩
      · show court ∈ applyCalls _ _
        rw [hfinal, ← htname]
        exact List.mem_append_right _ (List.mem_cons_self _ _)
      · show otherCourt court ∉ applyCalls _ _
        rw [hfinal]
        intro hm
        rcases List.mem_append.mp hm with hm1 | hm2
        · obtain ⟨x, hx, hxe⟩ := List.mem_map.mp hm1
          exact nonCourtName_ne_court x.name (otherCourt court) hother
            (hprenc x hx) hxe
        · rcases List.mem_cons.mp hm2 with hme | hm3
          · rw [htname] at hme
            exact hne hme
          · obtain ⟨x, hx, hxe⟩ := List.mem_map.mp hm3
            exact nonCourtName_ne_court x.name (otherCourt court) hother
              (hpostnc x hx) hxe
      · show (applyCalls _ _).filter nonCourtName = _
        rw [hfinal, hnames, List.filter_append, List.filter_append]
        have h1 : nonCourtName tL.name = false := by
          rw [htname]; exact nonCourtName_court court hcourt
        have h2 : nonCourtName l.name = false := by
          rw [hln]; exact nonCourtName_court (otherCourt court) hother
        simp only [List.filter_cons, h1, h2, Bool.false_eq_true, if_false]

/-- Claim C2 (witness): the incremental applier at a concrete input
with one non-court label: success, the target label present afterwards. -/
theorem C2_witness :
    (changeCourt REVIEWER_COURT
        ⟨7, [⟨5, "docs"⟩], ⟨some ⟨some "octo"⟩, some "repo", none⟩⟩
        ⟨none, none⟩ none).1 = GoResult.ok () ∧
    REVIEWER_COURT ∈ applyCalls (([⟨5, "docs"⟩] : List Label).map (fun l => l.name))
      (changeCourt REVIEWER_COURT
        ⟨7, [⟨5, "docs"⟩], ⟨some ⟨some "octo"⟩, some "repo", none⟩⟩
        ⟨none, none⟩ none).2 := by
  have h := C2_postconditions.1 REVIEWER_COURT
    ⟨7, [⟨5, "docs"⟩], ⟨some ⟨some "octo"⟩, some "repo", none⟩⟩
    ⟨none, none⟩ "octo" "repo" (Or.inl rfl) rfl (Or.inl rfl)
  exact ⟨h.1, h.2.1⟩

end WhoseCourt
